import Mathlib

/-!
# Verification of the ISDF convergence-sweep notebook

Shallow embedding of `src/src/openfermion/resource_estimates/pbc/notebooks/isdf.ipynb`.

The notebook is a parameter-sweep harness over external quantum-chemistry
routines: for each THC rank parameter it calls the external factorization
routine, compares the approximate result with a reference, and appends a
deviation value to an accumulating list (the ErrorRecord).

The external routines (from the `openfermion.resource_estimates.pbc.thc`
and pyscf packages) are opaque to the notebook.  They are modelled as
fields of an environment structure.  `solve_kmeans_kpisdf` uses the
KMeans-CVT algorithm, which draws from numpy's global random stream, so it
is modelled as consuming and returning an RNG state of abstract type.
Tensor values are modelled as lists of rationals; the numpy expression
`np.max(np.abs(x - y))` becomes `maxAbsDiff`.
-/

set_option autoImplicit false

namespace Isdf

/-- Elementwise max-absolute difference of two equally-shaped tensors,
modelling the numpy expression np.max(np.abs(x - y)) on the flattened
tensors.  The fold base 0 agrees with np.max on the non-empty arrays of
absolute values that occur in the notebook. -/
def maxAbsDiff (x y : List ℚ) : ℚ :=
  ((x.zip y).map (fun p => |p.1 - p.2|)).foldr max 0

/-- numpy's allclose with default tolerances rtol=1e-5, atol=1e-8,
as used by the assert in cell-6 of the notebook. -/
def npAllclose (x y : List ℚ) : Bool :=
  decide (x.length = y.length) &&
    (x.zip y).all (fun p => decide (|p.1 - p.2| ≤ 1 / 100000000 + (1 / 100000) * |p.2|))

/-- The rank-parameter sequence of the notebook sweeps:
thc_ranks = np.arange(2, 20, 2). -/
def thc_ranks : List ℕ := [2, 4, 6, 8, 10, 12, 14, 16, 18]

/-- The fixed problem configuration together with the external routines the
cell-8 sweep calls.  `ρ` is the type of numpy's global RNG state, `α` the
type of the factorization artifacts returned by solve_kmeans_kpisdf
(the kpt_thc object wrapped in the KPTHCHelperDoubleTranslation helper).
Fields record the quantities the notebook computes before the loop:
num_spatial_orbs (cell-6), num_kpts (cell-2), emp2_exact (cell-8, already
including mf.e_tot), and cell.mesh (cell-2). -/
structure Env (ρ α : Type) where
  mesh : List ℕ
  num_spatial_orbs : ℕ
  num_kpts : ℕ
  emp2_exact : ℚ
  solve_kmeans_kpisdf : ℕ → ρ → α × ρ
  get_eri : α → List ℚ
  get_eri_exact : α → List ℚ
  compute_emp2_approx : α → ℚ

variable {ρ α : Type}

/-- The floating-point tolerance of the exact-factorization scenario,
1e-10. -/
def isdfTol : ℚ := 1 / 10000000000

/-- Elementwise closeness of two equally-shaped tensors to a tolerance. -/
def eriClose (x y : List ℚ) (tol : ℚ) : Prop :=
  x.length = y.length ∧ ∀ p ∈ x.zip y, |p.1 - p.2| ≤ tol

/-- Modelled from the spec: the external ISDF factorization — the
functions solve_kmeans_kpisdf and KPTHCHelperDoubleTranslation.get_eri of
openfermion.resource_estimates.pbc.thc, which belong to this repository
but are not part of this file set — is exact in the full-rank limit: when
the number of interpolation points equals the full dimensionality of the
real-space grid, num_thc = np.prod(cell.mesh), the THC-reconstructed ERI
tensor matches the exact tensor elementwise to floating-point tolerance. -/
def FullRankExact (env : Env ρ α) : Prop :=
  ∀ r : ρ,
    eriClose (env.get_eri (env.solve_kmeans_kpisdf env.mesh.prod r).1)
      (env.get_eri_exact (env.solve_kmeans_kpisdf env.mesh.prod r).1) isdfTol

/-- A concrete environment whose factorization is exact at full rank. -/
def envC5 : Env Unit ℕ :=
  { mesh := [2]
    num_spatial_orbs := 1
    num_kpts := 3
    emp2_exact := 0
    solve_kmeans_kpisdf := fun n _ => (n, ())
    get_eri := fun k => [(k : ℚ)]
    get_eri_exact := fun k => [(k : ℚ)]
    compute_emp2_approx := fun _ => 0 }

/-- One iteration of the cell-8 loop body: compute num_thc, call the
external factorization (consuming RNG), reconstruct the approximate and
exact ERI tensors via the helper, and produce the pair of deviations
(delta_eri entry, delta_mp2 entry) together with the RNG state left behind.

    num_thc = cthc * num_spatial_orbs
    kpt_thc = kthc.solve_kmeans_kpisdf(mf, num_thc, verbose=False)
    kthc_eri_helper = kthc.KPTHCHelperDoubleTranslation(...)
    eri_thc = kthc_eri_helper.get_eri(eri_kindices)
    eri_exact = kthc_eri_helper.get_eri_exact(eri_kindices)
    delta_eri.append(np.max(np.abs(eri_thc-eri_exact))/num_kpts)
    emp2_approx = compute_emp2_approx(mf, kthc_eri_helper)
    delta_mp2.append(emp2_exact - emp2_approx)
-/
def sweepStep (env : Env ρ α) (cthc : ℕ) (r : ρ) : (ℚ × ℚ) × ρ :=
  let num_thc := cthc * env.num_spatial_orbs
  let s := env.solve_kmeans_kpisdf num_thc r
  let kpt_thc := s.1
  let eri_thc := env.get_eri kpt_thc
  let eri_exact := env.get_eri_exact kpt_thc
  let d_eri := maxAbsDiff eri_thc eri_exact / (env.num_kpts : ℚ)
  let d_mp2 := env.emp2_exact - env.compute_emp2_approx kpt_thc
  ((d_eri, d_mp2), s.2)

/-- The cell-8 loop, with the accumulating ErrorRecord lists
(delta_eri, delta_mp2) passed explicitly and every append made at the
tail, exactly as list.append does in the source. -/
def sweepFrom (env : Env ρ α) :
    List ℕ → List ℚ × List ℚ → ρ → (List ℚ × List ℚ) × ρ
  | [], acc, r => (acc, r)
  | cthc :: rest, acc, r =>
    sweepFrom env rest
      (acc.1 ++ [(sweepStep env cthc r).1.1], acc.2 ++ [(sweepStep env cthc r).1.2])
      (sweepStep env cthc r).2

/-- The full cell-8 sweep: delta_eri = [], delta_mp2 = [], then the loop
over the rank parameters, starting from RNG state `r`.  Returns the
ErrorRecord pair and the final RNG state. -/
def sweep (env : Env ρ α) (ranks : List ℕ) (r : ρ) : (List ℚ × List ℚ) × ρ :=
  sweepFrom env ranks ([], []) r

/-- The RNG states at the start of each successive sweep iteration. -/
def rngStates (env : Env ρ α) : List ℕ → ρ → List ρ
  | [], _ => []
  | cthc :: rest, r => r :: rngStates env rest (sweepStep env cthc r).2

/-- The external context of the cell-22 λ-sweep.  Before its loop the
notebook computes hcore, num_spatial_orbs, the exact MP2 correlation
energy emp2_exact (from cc_inst.init_amps, without mf.e_tot this time),
and calls np.random.seed(7); the loop then calls the factorization,
compute_lambda and compute_emp2_approx per rank.  np_random_seed models
numpy's seeding as a map from the seed to an RNG state. -/
structure Env22 (ρ α : Type) where
  num_spatial_orbs : ℕ
  e_tot : ℚ
  emp2_exact : ℚ
  np_random_seed : ℕ → ρ
  solve_kmeans_kpisdf : ℕ → ρ → α × ρ
  compute_lambda : α → ℚ
  compute_emp2_approx : α → ℚ

/-- One iteration of the cell-22 loop body:

    num_thc = cthc * num_spatial_orbs
    kpt_thc = kthc.solve_kmeans_kpisdf(mf, num_thc, verbose=False)
    thc_lambda = kthc.compute_lambda(hcore, kthc_eri_helper)
    emp2_approx = compute_emp2_approx(mf, kthc_eri_helper) - mf.e_tot
    emp2_error = abs(emp2_approx - emp2_exact)

The printed (emp2_error, lambda_total) pair is the iteration's result. -/
def cell22Step (env : Env22 ρ α) (cthc : ℕ) (r : ρ) : (ℚ × ℚ) × ρ :=
  let num_thc := cthc * env.num_spatial_orbs
  let s := env.solve_kmeans_kpisdf num_thc r
  let kpt_thc := s.1
  let thc_lambda := env.compute_lambda kpt_thc
  let emp2_approx := env.compute_emp2_approx kpt_thc - env.e_tot
  let emp2_error := |emp2_approx - env.emp2_exact|
  ((emp2_error, thc_lambda), s.2)

/-- The cell-22 loop over the rank parameters, collecting the per-iteration
printed (emp2_error, lambda) pairs in order. -/
def cell22SweepFrom (env : Env22 ρ α) :
    List ℕ → List (ℚ × ℚ) → ρ → List (ℚ × ℚ) × ρ
  | [], acc, r => (acc, r)
  | cthc :: rest, acc, r =>
    cell22SweepFrom env rest (acc ++ [(cell22Step env cthc r).1]) (cell22Step env cthc r).2

/-- The cell-22 λ-sweep: np.random.seed(seed) followed by the loop. -/
def cell22Sweep (env : Env22 ρ α) (ranks : List ℕ) (seed : ℕ) : List (ℚ × ℚ) × ρ :=
  cell22SweepFrom env ranks [] (env.np_random_seed seed)

/-- RNG states at the start of each successive cell-22 iteration. -/
def cell22RngStates (env : Env22 ρ α) : List ℕ → ρ → List ρ
  | [], _ => []
  | cthc :: rest, r => r :: cell22RngStates env rest (cell22Step env cthc r).2

/-- Labels for the external-library calls the notebook's sweep loops make.
solve_kmeans_kpisdf carries the num_thc argument it is invoked with. -/
inductive ExtCall where
  | scf_kernel
  | kmp2_reference
  | solve_kmeans_kpisdf (num_thc : ℕ)
  | get_eri
  | get_eri_exact
  | compute_emp2_approx
  | compute_lambda
  deriving DecidableEq

/-- External calls made by one iteration of the cell-8 rank loop, in
program order: solve_kmeans_kpisdf with num_thc = cthc * num_spatial_orbs,
then get_eri, then get_eri_exact, then compute_emp2_approx. -/
def cell8StepCalls (nso cthc : ℕ) : List ExtCall :=
  [ExtCall.solve_kmeans_kpisdf (cthc * nso), ExtCall.get_eri, ExtCall.get_eri_exact,
   ExtCall.compute_emp2_approx]

/-- External calls made by the whole cell-8 rank sweep. -/
def cell8Calls (nso : ℕ) (ranks : List ℕ) : List ExtCall :=
  ranks.flatMap (cell8StepCalls nso)

/-- External calls made by one iteration of the inner rank loop of the
cell-17 mesh study and the cell-19 basis study: the factorization call and
the approximate-MP2 evaluation. -/
def innerRankCalls (nso : ℕ) (ranks : List ℕ) : List ExtCall :=
  ranks.flatMap (fun cthc =>
    [ExtCall.solve_kmeans_kpisdf (cthc * nso), ExtCall.compute_emp2_approx])

/-- External calls of one outer iteration of cell-17: SCF, then the exact
KMP2 reference energy, then the inner rank loop.  num_spatial_orbs is the
value left over from cell-6 and is not recomputed per mesh. -/
def cell17Calls (nso : ℕ) (meshes ranks : List ℕ) : List ExtCall :=
  meshes.flatMap (fun _ =>
    ExtCall.scf_kernel :: ExtCall.kmp2_reference :: innerRankCalls nso ranks)

/-- External calls of cell-19: per basis set, SCF, the exact KMP2 reference
energy (num_spatial_orbs is recomputed per basis), then the inner rank
loop. -/
def cell19Calls {β : Type} (nsoOf : β → ℕ) (bases : List β) (ranks : List ℕ) :
    List ExtCall :=
  bases.flatMap (fun b =>
    ExtCall.scf_kernel :: ExtCall.kmp2_reference :: innerRankCalls (nsoOf b) ranks)

/-- External calls made by the cell-22 rank loop, in program order per
iteration: solve_kmeans_kpisdf with num_thc = cthc * num_spatial_orbs,
then compute_lambda, then compute_emp2_approx. -/
def cell22Calls (nso : ℕ) (ranks : List ℕ) : List ExtCall :=
  ranks.flatMap (fun cthc =>
    [ExtCall.solve_kmeans_kpisdf (cthc * nso), ExtCall.compute_lambda,
     ExtCall.compute_emp2_approx])

/-- The num_thc arguments of the factorization calls in a trace, in order. -/
def solveArgs : List ExtCall → List ℕ
  | [] => []
  | ExtCall.solve_kmeans_kpisdf n :: rest => n :: solveArgs rest
  | ExtCall.scf_kernel :: rest => solveArgs rest
  | ExtCall.kmp2_reference :: rest => solveArgs rest
  | ExtCall.get_eri :: rest => solveArgs rest
  | ExtCall.get_eri_exact :: rest => solveArgs rest
  | ExtCall.compute_emp2_approx :: rest => solveArgs rest
  | ExtCall.compute_lambda :: rest => solveArgs rest

/-- The cell-8 context with a fallible external factorization call:
solve_kmeans_kpisdf returns none when it raises (non-convergence, numerical
error).  The notebook has no try/except around the loop body. -/
structure EnvF (ρ α : Type) where
  num_spatial_orbs : ℕ
  num_kpts : ℕ
  emp2_exact : ℚ
  solve_kmeans_kpisdf : ℕ → ρ → Option (α × ρ)
  get_eri : α → List ℚ
  get_eri_exact : α → List ℚ
  compute_emp2_approx : α → ℚ

/-- The cell-8 loop under Python exception semantics: an exception raised
by the factorization call inside the loop body propagates out of the for
statement, so the remaining iterations never run.  The Bool records whether
an unhandled exception escaped; the accumulated lists keep whatever was
appended before the failing iteration. -/
def sweepFromF (env : EnvF ρ α) :
    List ℕ → List ℚ × List ℚ → ρ → ((List ℚ × List ℚ) × ρ) × Bool
  | [], acc, r => ((acc, r), false)
  | cthc :: rest, acc, r =>
    match env.solve_kmeans_kpisdf (cthc * env.num_spatial_orbs) r with
    | none => ((acc, r), true)
    | some s =>
      sweepFromF env rest
        (acc.1 ++ [maxAbsDiff (env.get_eri s.1) (env.get_eri_exact s.1) / (env.num_kpts : ℚ)],
         acc.2 ++ [env.emp2_exact - env.compute_emp2_approx s.1])
        s.2

/-- The full fallible cell-8 sweep from empty ErrorRecord lists. -/
def sweepF (env : EnvF ρ α) (ranks : List ℕ) (r : ρ) :
    ((List ℚ × List ℚ) × ρ) × Bool :=
  sweepFromF env ranks ([], []) r

/-- Whether every factorization call succeeds along the given parameter
list, threading the RNG state. -/
def succeedsFromB (env : EnvF ρ α) : List ℕ → ρ → Bool
  | [], _ => true
  | cthc :: rest, r =>
    match env.solve_kmeans_kpisdf (cthc * env.num_spatial_orbs) r with
    | none => false
    | some s => succeedsFromB env rest s.2

/-- A concrete fallible environment: the factorization raises exactly when
asked for num_thc = 4 interpolation points. -/
def envF4 : EnvF ℕ ℕ :=
  { num_spatial_orbs := 1
    num_kpts := 1
    emp2_exact := 0
    solve_kmeans_kpisdf := fun n r => if n = 4 then none else some (n + r, r + 1)
    get_eri := fun k => [(k : ℚ)]
    get_eri_exact := fun _ => [0]
    compute_emp2_approx := fun _ => 0 }

/-- A concrete environment used to instantiate universally quantified
theorems: RNG state and factorization artifacts are both natural numbers,
the external solver consumes one RNG draw per call. -/
def envA : Env ℕ ℕ :=
  { mesh := [11, 11, 11]
    num_spatial_orbs := 8
    num_kpts := 3
    emp2_exact := -11
    solve_kmeans_kpisdf := fun n r => (n + r, r + 1)
    get_eri := fun k => [(k : ℚ), 0]
    get_eri_exact := fun k => [(k : ℚ) / 2, 0]
    compute_emp2_approx := fun k => -11 + 1 / ((k : ℚ) + 1) }

/-- A second concrete environment, for the cell-22 λ-sweep model. -/
def envB : Env22 ℕ ℕ :=
  { num_spatial_orbs := 13
    e_tot := -10
    emp2_exact := -(1 / 5)
    np_random_seed := fun s => s
    solve_kmeans_kpisdf := fun n r => (n + r, r + 1)
    compute_lambda := fun k => (k : ℚ)
    compute_emp2_approx := fun k => -10 - 1 / ((k : ℚ) + 2) }

theorem sweepFrom_acc (env : Env ρ α) (ranks : List ℕ) :
    ∀ (acc : List ℚ × List ℚ) (r : ρ),
      sweepFrom env ranks acc r =
        ((acc.1 ++ (sweepFrom env ranks ([], []) r).1.1,
          acc.2 ++ (sweepFrom env ranks ([], []) r).1.2),
         (sweepFrom env ranks ([], []) r).2) := by
  induction ranks with
  | nil => intro acc r; simp [sweepFrom]
  | cons c rest ih =>
    intro acc r
    simp only [sweepFrom]
    rw [ih ((acc.1 ++ [(sweepStep env c r).1.1], acc.2 ++ [(sweepStep env c r).1.2]))]
    rw [ih (([] ++ [(sweepStep env c r).1.1], [] ++ [(sweepStep env c r).1.2]))]
    simp

theorem sweep_cons (env : Env ρ α) (c : ℕ) (rest : List ℕ) (r : ρ) :
    sweep env (c :: rest) r =
      (((sweepStep env c r).1.1 :: (sweep env rest (sweepStep env c r).2).1.1,
        (sweepStep env c r).1.2 :: (sweep env rest (sweepStep env c r).2).1.2),
       (sweep env rest (sweepStep env c r).2).2) := by
  simp only [sweep, sweepFrom]
  rw [sweepFrom_acc]
  simp

theorem sweep_append (env : Env ρ α) (l₁ l₂ : List ℕ) (r : ρ) :
    sweep env (l₁ ++ l₂) r =
      (((sweep env l₁ r).1.1 ++ (sweep env l₂ (sweep env l₁ r).2).1.1,
        (sweep env l₁ r).1.2 ++ (sweep env l₂ (sweep env l₁ r).2).1.2),
       (sweep env l₂ (sweep env l₁ r).2).2) := by
  induction l₁ generalizing r with
  | nil => simp [sweep, sweepFrom]
  | cons c rest ih =>
    simp only [List.cons_append, sweep_cons, ih]

theorem sweep_fst_eq_zipWith (env : Env ρ α) (ranks : List ℕ) (r : ρ) :
    (sweep env ranks r).1.1 =
      List.zipWith (fun c s => (sweepStep env c s).1.1) ranks (rngStates env ranks r) := by
  induction ranks generalizing r with
  | nil => simp [sweep, sweepFrom, rngStates]
  | cons c rest ih => simp [sweep_cons, rngStates, ih]

theorem sweep_snd_eq_zipWith (env : Env ρ α) (ranks : List ℕ) (r : ρ) :
    (sweep env ranks r).1.2 =
      List.zipWith (fun c s => (sweepStep env c s).1.2) ranks (rngStates env ranks r) := by
  induction ranks generalizing r with
  | nil => simp [sweep, sweepFrom, rngStates]
  | cons c rest ih => simp [sweep_cons, rngStates, ih]

theorem rngStates_length (env : Env ρ α) (ranks : List ℕ) (r : ρ) :
    (rngStates env ranks r).length = ranks.length := by
  induction ranks generalizing r with
  | nil => simp [rngStates]
  | cons c rest ih => simp [rngStates, ih]

theorem sweep_fst_length (env : Env ρ α) (ranks : List ℕ) (r : ρ) :
    (sweep env ranks r).1.1.length = ranks.length := by
  rw [sweep_fst_eq_zipWith]
  simp [rngStates_length]

theorem sweep_snd_length (env : Env ρ α) (ranks : List ℕ) (r : ρ) :
    (sweep env ranks r).1.2.length = ranks.length := by
  rw [sweep_snd_eq_zipWith]
  simp [rngStates_length]

theorem foldr_max_nonneg (l : List ℚ) : 0 ≤ l.foldr max 0 := by
  induction l with
  | nil => exact le_refl 0
  | cons a t ih => exact le_max_of_le_right ih

theorem maxAbsDiff_nonneg (x y : List ℚ) : 0 ≤ maxAbsDiff x y :=
  foldr_max_nonneg _

theorem sweepStep_fst_nonneg (env : Env ρ α) (c : ℕ) (r : ρ) :
    0 ≤ (sweepStep env c r).1.1 :=
  div_nonneg (maxAbsDiff_nonneg _ _) (Nat.cast_nonneg _)

theorem sweep_fst_nonneg (env : Env ρ α) (ranks : List ℕ) (r : ρ) :
    ∀ d ∈ (sweep env ranks r).1.1, 0 ≤ d := by
  induction ranks generalizing r with
  | nil => simp [sweep, sweepFrom]
  | cons c rest ih =>
    intro d hd
    rw [sweep_cons] at hd
    rcases List.mem_cons.mp hd with h | h
    · exact h ▸ sweepStep_fst_nonneg env c r
    · exact ih _ d h

theorem cell22SweepFrom_acc (env : Env22 ρ α) (ranks : List ℕ) :
    ∀ (acc : List (ℚ × ℚ)) (r : ρ),
      cell22SweepFrom env ranks acc r =
        (acc ++ (cell22SweepFrom env ranks [] r).1, (cell22SweepFrom env ranks [] r).2) := by
  induction ranks with
  | nil => intro acc r; simp [cell22SweepFrom]
  | cons c rest ih =>
    intro acc r
    simp only [cell22SweepFrom]
    rw [ih (acc ++ [(cell22Step env c r).1]), ih ([] ++ [(cell22Step env c r).1])]
    simp

theorem cell22_cons (env : Env22 ρ α) (c : ℕ) (rest : List ℕ) (r : ρ) :
    cell22SweepFrom env (c :: rest) [] r =
      ((cell22Step env c r).1 :: (cell22SweepFrom env rest [] (cell22Step env c r).2).1,
       (cell22SweepFrom env rest [] (cell22Step env c r).2).2) := by
  simp only [cell22SweepFrom]
  rw [cell22SweepFrom_acc]
  simp

theorem cell22SweepFrom_eq_zipWith (env : Env22 ρ α) (ranks : List ℕ) (r : ρ) :
    (cell22SweepFrom env ranks [] r).1 =
      List.zipWith (fun c s => (cell22Step env c s).1) ranks (cell22RngStates env ranks r) := by
  induction ranks generalizing r with
  | nil => simp [cell22SweepFrom, cell22RngStates]
  | cons c rest ih =>
    simp only [cell22SweepFrom, cell22RngStates, List.zipWith]
    rw [cell22SweepFrom_acc]
    simp [ih]

theorem solveArgs_append (l₁ l₂ : List ExtCall) :
    solveArgs (l₁ ++ l₂) = solveArgs l₁ ++ solveArgs l₂ := by
  induction l₁ with
  | nil => rfl
  | cons a rest ih => cases a <;> simp [solveArgs, ih]

theorem innerRankCalls_count_kmp2 (nso : ℕ) (ranks : List ℕ) :
    (innerRankCalls nso ranks).count ExtCall.kmp2_reference = 0 := by
  rw [List.count_eq_zero]
  intro hmem
  rw [innerRankCalls, List.mem_flatMap] at hmem
  obtain ⟨c, _, hc⟩ := hmem
  simp at hc

theorem cell8Calls_count_eri_exact (nso : ℕ) (ranks : List ℕ) :
    (cell8Calls nso ranks).count ExtCall.get_eri_exact = ranks.length := by
  induction ranks with
  | nil => rfl
  | cons c rest ih =>
    rw [cell8Calls, List.flatMap_cons, List.count_append]
    rw [cell8Calls] at ih
    rw [ih, cell8StepCalls]
    simp [List.count_cons]
    try omega

theorem cell17Calls_count_kmp2 (nso : ℕ) (meshes ranks : List ℕ) :
    (cell17Calls nso meshes ranks).count ExtCall.kmp2_reference = meshes.length := by
  induction meshes with
  | nil => rfl
  | cons m rest ih =>
    rw [cell17Calls, List.flatMap_cons, List.count_append]
    rw [cell17Calls] at ih
    rw [ih, List.count_cons, List.count_cons, innerRankCalls_count_kmp2]
    simp [Nat.add_comm]

theorem cell19Calls_count_kmp2 {β : Type} (nsoOf : β → ℕ) (bases : List β)
    (ranks : List ℕ) :
    (cell19Calls nsoOf bases ranks).count ExtCall.kmp2_reference = bases.length := by
  induction bases with
  | nil => rfl
  | cons b rest ih =>
    rw [cell19Calls, List.flatMap_cons, List.count_append]
    rw [cell19Calls] at ih
    rw [ih, List.count_cons, List.count_cons, innerRankCalls_count_kmp2]
    simp [Nat.add_comm]

theorem sweepFromF_acc (env : EnvF ρ α) (ranks : List ℕ) :
    ∀ (acc : List ℚ × List ℚ) (r : ρ),
      sweepFromF env ranks acc r =
        (((acc.1 ++ (sweepF env ranks r).1.1.1, acc.2 ++ (sweepF env ranks r).1.1.2),
          (sweepF env ranks r).1.2), (sweepF env ranks r).2) := by
  induction ranks with
  | nil => intro acc r; simp [sweepFromF, sweepF]
  | cons c rest ih =>
    intro acc r
    rw [sweepF]
    simp only [sweepFromF]
    cases h : env.solve_kmeans_kpisdf (c * env.num_spatial_orbs) r with
    | none => simp
    | some s =>
      dsimp only
      rw [ih (acc.1 ++ [_], acc.2 ++ [_]), ih ([] ++ [_], [] ++ [_])]
      simp

theorem cell22Step_val (env : Env22 ρ α) (c : ℕ) (r : ρ) :
    (cell22Step env c r).1 =
      (|env.compute_emp2_approx
            (env.solve_kmeans_kpisdf (c * env.num_spatial_orbs) r).1 -
          env.e_tot - env.emp2_exact|,
       env.compute_lambda (env.solve_kmeans_kpisdf (c * env.num_spatial_orbs) r).1) := rfl

theorem sweepStep_fst_eri (env : Env ρ α) (c : ℕ) (r : ρ) :
    (sweepStep env c r).1.1 =
      maxAbsDiff (env.get_eri (env.solve_kmeans_kpisdf (c * env.num_spatial_orbs) r).1)
          (env.get_eri_exact (env.solve_kmeans_kpisdf (c * env.num_spatial_orbs) r).1) /
        (env.num_kpts : ℚ) := rfl

theorem sweepStep_snd_mp2 (env : Env ρ α) (c : ℕ) (r : ρ) :
    (sweepStep env c r).1.2 =
      env.emp2_exact -
        env.compute_emp2_approx (env.solve_kmeans_kpisdf (c * env.num_spatial_orbs) r).1 := rfl

theorem cell22_err_nonneg (env : Env22 ρ α) (ranks : List ℕ) :
    ∀ (r : ρ), ∀ e ∈ (cell22SweepFrom env ranks [] r).1, 0 ≤ e.1 := by
  induction ranks with
  | nil => intro r e he; simp [cell22SweepFrom] at he
  | cons c rest ih =>
    intro r e he
    rw [cell22_cons] at he
    rcases List.mem_cons.mp he with h | h
    · rw [h, cell22Step_val]
      exact abs_nonneg _
    · exact ih _ e h

/-- C1: for every non-empty ordered sequence of rank parameters, the sweep
produces an ErrorRecord with exactly one deviation entry per input
parameter (the lengths match and each entry is the step value for the
corresponding parameter, in input order), and the record is append-only:
for any split of the input sequence, the record of the prefix is extended,
never overwritten or shortened, by the remaining steps. -/
theorem C1_sweep_record_shape (ρ α : Type) (env : Env ρ α)
    (ranks pre post : List ℕ) (r : ρ)
    (hne : ranks ≠ []) (hsplit : ranks = pre ++ post) :
    (sweep env ranks r).1.1.length = ranks.length ∧
    (sweep env ranks r).1.2.length = ranks.length ∧
    (sweep env ranks r).1.1 =
      List.zipWith (fun c s => (sweepStep env c s).1.1) ranks (rngStates env ranks r) ∧
    (sweep env ranks r).1.2 =
      List.zipWith (fun c s => (sweepStep env c s).1.2) ranks (rngStates env ranks r) ∧
    (sweep env ranks r).1.1 =
      (sweep env pre r).1.1 ++ (sweep env post (sweep env pre r).2).1.1 ∧
    (sweep env ranks r).1.2 =
      (sweep env pre r).1.2 ++ (sweep env post (sweep env pre r).2).1.2 := by
  subst hsplit
  exact ⟨sweep_fst_length env _ r, sweep_snd_length env _ r,
    sweep_fst_eq_zipWith env _ r, sweep_snd_eq_zipWith env _ r,
    by rw [sweep_append], by rw [sweep_append]⟩

/-- Witness for C1 at a concrete non-empty rank sequence and split. -/
theorem C1_sweep_record_shape_witness :
    ([2, 4, 6] : List ℕ) ≠ [] ∧ ([2, 4, 6] : List ℕ) = [2] ++ [4, 6] ∧
    ((sweep envA [2, 4, 6] 0).1.1.length = ([2, 4, 6] : List ℕ).length ∧
     (sweep envA [2, 4, 6] 0).1.2.length = ([2, 4, 6] : List ℕ).length ∧
     (sweep envA [2, 4, 6] 0).1.1 =
       List.zipWith (fun c s => (sweepStep envA c s).1.1) [2, 4, 6]
         (rngStates envA [2, 4, 6] 0) ∧
     (sweep envA [2, 4, 6] 0).1.2 =
       List.zipWith (fun c s => (sweepStep envA c s).1.2) [2, 4, 6]
         (rngStates envA [2, 4, 6] 0) ∧
     (sweep envA [2, 4, 6] 0).1.1 =
       (sweep envA [2] 0).1.1 ++ (sweep envA [4, 6] (sweep envA [2] 0).2).1.1 ∧
     (sweep envA [2, 4, 6] 0).1.2 =
       (sweep envA [2] 0).1.2 ++ (sweep envA [4, 6] (sweep envA [2] 0).2).1.2) :=
  ⟨by decide, by decide,
   C1_sweep_record_shape ℕ ℕ envA [2, 4, 6] [2] [4, 6] 0 (by decide) (by decide)⟩

/-- C2, counterexample: the claim says every deviation stored by a sweep is
non-negative, in particular the recorded MP2-energy deviation.  But the
rank sweep stores the signed difference emp2_exact - emp2_approx, which is
negative whenever the approximate energy overshoots the reference, as in
this concrete run. -/
theorem C2_counterexample : ¬ ∀ d ∈ (sweep envA [2] 0).1.2, 0 ≤ d := by
  intro hall
  have hrec : (sweep envA [2] 0).1.2 = [-(1 / 17)] := by
    simp [sweep, sweepFrom, sweepStep, envA]
    norm_num
  have hneg := hall (-(1 / 17)) (by rw [hrec]; exact List.mem_singleton_self _)
  norm_num at hneg

/-- C2, amended: every integral deviation stored by the rank sweep is
non-negative (a max of absolute values divided by the k-point count), and
every MP2 error recorded by the cell-22 λ-sweep is non-negative (an
absolute value); the MP2-energy deviation stored by the rank sweep,
however, is a signed difference and is not non-negative in general. -/
theorem C2_deviation_sign (ρ α ρ' α' : Type) (env : Env ρ α) (env22 : Env22 ρ' α')
    (ranks ranksB : List ℕ) (r : ρ) (s : ℕ) :
    ((sweep env ranks r).1.1.all fun d => decide (0 ≤ d)) = true ∧
    ((cell22Sweep env22 ranksB s).1.all fun e => decide (0 ≤ e.1)) = true := by
  constructor
  · exact List.all_eq_true.mpr fun d hd => decide_eq_true (sweep_fst_nonneg env ranks r d hd)
  · exact List.all_eq_true.mpr fun e he =>
      decide_eq_true (cell22_err_nonneg env22 ranksB (env22.np_random_seed s) e he)

/-- C3, counterexample: the claim says each recorded deviation equals an
absolute difference (scalar case) or max-absolute difference (tensor case)
between the approximate and reference results.  In this concrete rank-sweep
run the max-absolute integral difference is 8 but the recorded deviation is
8/3 (the difference divided by num_kpts = 3), and the recorded MP2-energy
deviation is the signed value -1/17, not the absolute difference 1/17. -/
theorem C3_counterexample :
    (sweep envA [2] 0).1.1 = [8 / 3] ∧
    maxAbsDiff (envA.get_eri (envA.solve_kmeans_kpisdf (2 * envA.num_spatial_orbs) 0).1)
        (envA.get_eri_exact (envA.solve_kmeans_kpisdf (2 * envA.num_spatial_orbs) 0).1) = 8 ∧
    ((8 : ℚ) / 3 ≠ 8) ∧
    (sweep envA [2] 0).1.2 = [-(1 / 17)] ∧
    (-(1 / 17) : ℚ) ≠ |(-(1 / 17) : ℚ)| := by
  refine ⟨?_, ?_, by norm_num, ?_, ?_⟩
  · simp [sweep, sweepFrom, sweepStep, envA, maxAbsDiff]
    norm_num
  · simp [envA, maxAbsDiff]
    norm_num
  · simp [sweep, sweepFrom, sweepStep, envA]
    norm_num
  · rw [abs_of_nonpos (by norm_num)]
    norm_num

/-- C3, amended: in every rank-sweep iteration the recorded integral
deviation equals the max-absolute difference between the approximate and
exact ERI tensors divided by num_kpts, the recorded MP2-energy deviation
equals the signed difference between the reference energy and the
approximate energy, and in every cell-22 iteration the printed MP2 error
equals the absolute difference between approximate and reference
correlation energies. -/
theorem C3_deviation_metric (ρ α ρ' α' : Type) (env : Env ρ α) (env22 : Env22 ρ' α')
    (ranks ranksB : List ℕ) (r : ρ) (s : ℕ) :
    (sweep env ranks r).1.1 =
      List.zipWith (fun c st =>
        maxAbsDiff (env.get_eri (env.solve_kmeans_kpisdf (c * env.num_spatial_orbs) st).1)
            (env.get_eri_exact (env.solve_kmeans_kpisdf (c * env.num_spatial_orbs) st).1) /
          (env.num_kpts : ℚ)) ranks (rngStates env ranks r) ∧
    (sweep env ranks r).1.2 =
      List.zipWith (fun c st =>
        env.emp2_exact -
          env.compute_emp2_approx (env.solve_kmeans_kpisdf (c * env.num_spatial_orbs) st).1)
        ranks (rngStates env ranks r) ∧
    (cell22Sweep env22 ranksB s).1 =
      List.zipWith (fun c st =>
        (|env22.compute_emp2_approx
              (env22.solve_kmeans_kpisdf (c * env22.num_spatial_orbs) st).1 -
            env22.e_tot - env22.emp2_exact|,
         env22.compute_lambda (env22.solve_kmeans_kpisdf (c * env22.num_spatial_orbs) st).1))
        ranksB (cell22RngStates env22 ranksB (env22.np_random_seed s)) := by
  refine ⟨?_, ?_, ?_⟩
  · rw [sweep_fst_eq_zipWith]
    simp only [sweepStep_fst_eri]
  · rw [sweep_snd_eq_zipWith]
    simp only [sweepStep_snd_mp2]
  · rw [cell22Sweep, cell22SweepFrom_eq_zipWith]
    simp only [cell22Step_val]

theorem sweepF_cons_some (env : EnvF ρ α) (c : ℕ) (rest : List ℕ) (r : ρ) (s : α × ρ)
    (hs : env.solve_kmeans_kpisdf (c * env.num_spatial_orbs) r = some s) :
    sweepF env (c :: rest) r =
      ((((maxAbsDiff (env.get_eri s.1) (env.get_eri_exact s.1) / (env.num_kpts : ℚ)) ::
            (sweepF env rest s.2).1.1.1,
         (env.emp2_exact - env.compute_emp2_approx s.1) :: (sweepF env rest s.2).1.1.2),
        (sweepF env rest s.2).1.2), (sweepF env rest s.2).2) := by
  rw [sweepF]
  simp only [sweepFromF, hs]
  rw [sweepFromF_acc]
  simp

/-- C4, counterexample: the claim says a failing factorization call blocks
only its own entry and every later parameter is still processed and
recorded.  In this concrete run the call raises at the middle parameter of
[2, 4, 6]; with no exception handling in the loop, the sweep stops with
only one recorded entry (for parameter 2), so the deviation for the later
parameter 6 is never recorded. -/
theorem C4_counterexample :
    (sweepF envF4 [2, 4, 6] 0).2 = true ∧
    (sweepF envF4 [2, 4, 6] 0).1.1.1.length = 1 ∧
    ¬ 2 ≤ (sweepF envF4 [2, 4, 6] 0).1.1.1.length := by
  refine ⟨?_, ?_, ?_⟩ <;>
    simp [sweepF, sweepFromF, envF4, sweepFromF_acc]

/-- C4, amended: if the external factorization call raises at one rank
parameter, the exception propagates out of the loop and aborts the whole
remaining sweep: the entries recorded for the parameters before the
failure are kept unchanged, but neither the failing parameter nor any
later parameter gets an entry. -/
theorem C4_failure_aborts_sweep (ρ α : Type) (env : EnvF ρ α)
    (pre post : List ℕ) (c : ℕ) (r : ρ)
    (hpre : succeedsFromB env pre r = true)
    (hfail : env.solve_kmeans_kpisdf (c * env.num_spatial_orbs)
        ((sweepF env pre r).1.2) = none) :
    sweepF env (pre ++ c :: post) r = ((sweepF env pre r).1, true) ∧
    (sweepF env pre r).2 = false ∧
    (sweepF env pre r).1.1.1.length = pre.length ∧
    (sweepF env pre r).1.1.2.length = pre.length := by
  revert hpre hfail
  induction pre generalizing r with
  | nil =>
    intro hpre hfail
    simp only [sweepF, sweepFromF] at hfail
    refine ⟨?_, ?_, ?_, ?_⟩ <;> simp [sweepF, sweepFromF, hfail]
  | cons p ps ih =>
    intro hpre hfail
    simp only [succeedsFromB] at hpre
    cases hs : env.solve_kmeans_kpisdf (p * env.num_spatial_orbs) r with
    | none =>
      rw [hs] at hpre
      simp at hpre
    | some s =>
      rw [hs] at hpre
      dsimp only at hpre
      have h1 := sweepF_cons_some env p ps r s hs
      have h2 := sweepF_cons_some env p (ps ++ c :: post) r s hs
      have hfail2 : env.solve_kmeans_kpisdf (c * env.num_spatial_orbs)
          ((sweepF env ps s.2).1.2) = none := by
        rw [h1] at hfail
        exact hfail
      obtain ⟨g1, g2, g3, g4⟩ := ih s.2 hpre hfail2
      refine ⟨?_, ?_, ?_, ?_⟩
      · rw [List.cons_append, h2, g1, h1]
      · rw [h1]
        exact g2
      · rw [h1]
        simp [g3]
      · rw [h1]
        simp [g4]

/-- Witness for C4 at a concrete failing run: the prefix [2] succeeds, the
call for parameter 4 raises, and the sweep over [2, 4, 6] returns only the
prefix record with the exception flag set. -/
theorem C4_failure_aborts_sweep_witness :
    succeedsFromB envF4 [2] 0 = true ∧
    envF4.solve_kmeans_kpisdf (4 * envF4.num_spatial_orbs) ((sweepF envF4 [2] 0).1.2) = none ∧
    (sweepF envF4 ([2] ++ 4 :: [6]) 0 = ((sweepF envF4 [2] 0).1, true) ∧
     (sweepF envF4 [2] 0).2 = false ∧
     (sweepF envF4 [2] 0).1.1.1.length = [2].length ∧
     (sweepF envF4 [2] 0).1.1.2.length = [2].length) :=
  ⟨by decide, by decide,
   C4_failure_aborts_sweep ℕ ℕ envF4 [2] [6] 4 0 (by decide) (by decide)⟩

/-- C6: two sweeps executed with identical inputs — the same parameter
sequence, the same configuration environment, and the same initial RNG
state (for the rank sweep) or the same np.random.seed argument (for the
cell-22 λ-sweep) — produce identical ErrorRecord sequences: the sweep
output is a deterministic function of its inputs and the seed. -/
theorem C6_sweep_deterministic (ρ α ρ' α' : Type) (env : Env ρ α) (env22 : Env22 ρ' α')
    (ranksA ranksB ranksC ranksD : List ℕ) (rA rB : ρ) (sA sB : ℕ)
    (hRanks : ranksA = ranksB) (hRng : rA = rB)
    (hRanks22 : ranksC = ranksD) (hSeed : sA = sB) :
    sweep env ranksA rA = sweep env ranksB rB ∧
    cell22Sweep env22 ranksC sA = cell22Sweep env22 ranksD sB := by
  subst hRanks
  subst hRng
  subst hRanks22
  subst hSeed
  exact ⟨rfl, rfl⟩

/-- Witness for C6 at concrete identical inputs. -/
theorem C6_sweep_deterministic_witness :
    ([2, 4] : List ℕ) = [2, 4] ∧ (0 : ℕ) = 0 ∧ ([6] : List ℕ) = [6] ∧ (7 : ℕ) = 7 ∧
    (sweep envA [2, 4] 0 = sweep envA [2, 4] 0 ∧
     cell22Sweep envB [6] 7 = cell22Sweep envB [6] 7) :=
  ⟨rfl, rfl, rfl, rfl,
   C6_sweep_deterministic ℕ ℕ ℕ ℕ envA envB [2, 4] [2, 4] [6] [6] 0 0 7 7 rfl rfl rfl rfl⟩

/-- C7, counterexample: the claim says the reference (reference energy or
exact integral tensor) is computed exactly once per outer configuration,
before the inner rank sweep.  The cell-8 rank sweep is a single
configuration, yet its loop body calls get_eri_exact on the helper in
every iteration: over thc_ranks = arange(2, 20, 2) the exact integral
tensor is computed 9 times, inside the loop, not once before it. -/
theorem C7_counterexample :
    (cell8Calls 8 thc_ranks).count ExtCall.get_eri_exact = 9 ∧ (9 : ℕ) ≠ 1 := by
  exact ⟨by decide, by decide⟩

/-- C7, amended: the reference MP2 energy is computed exactly once per
outer configuration (one KMP2 call per mesh in cell-17 and per basis in
cell-19, placed before the inner rank loop, which itself performs no
reference-energy computation), and every iteration of the cell-8 rank
sweep compares against the one emp2_exact value computed before the loop;
but the exact integral tensor of the cell-8 sweep is recomputed by a
get_eri_exact helper call in every single iteration of the loop rather
than once before it. -/
theorem C7_reference_computation (ρ α β : Type) (env : Env ρ α) (nsoOf : β → ℕ)
    (nso : ℕ) (meshes ranks : List ℕ) (bases : List β) (r : ρ) :
    (cell17Calls nso meshes ranks).count ExtCall.kmp2_reference = meshes.length ∧
    (cell19Calls nsoOf bases ranks).count ExtCall.kmp2_reference = bases.length ∧
    (innerRankCalls nso ranks).count ExtCall.kmp2_reference = 0 ∧
    (sweep env ranks r).1.2 =
      List.zipWith (fun c st =>
        env.emp2_exact -
          env.compute_emp2_approx (env.solve_kmeans_kpisdf (c * env.num_spatial_orbs) st).1)
        ranks (rngStates env ranks r) ∧
    (cell8Calls nso ranks).count ExtCall.get_eri_exact = ranks.length :=
  ⟨cell17Calls_count_kmp2 nso meshes ranks,
   cell19Calls_count_kmp2 nsoOf bases ranks,
   innerRankCalls_count_kmp2 nso ranks,
   by rw [sweep_snd_eq_zipWith]; simp only [sweepStep_snd_mp2],
   cell8Calls_count_eri_exact nso ranks⟩

/-- C9: in every sweep iteration, of every sweep in the notebook, the
num_thc argument passed to solve_kmeans_kpisdf equals the rank parameter
times the number of spatial orbitals: the factorization calls of the
cell-8 sweep, the cell-17 mesh study (which keeps the num_spatial_orbs
value of cell-6 across meshes), the cell-19 basis study (which recomputes
num_spatial_orbs per basis) and the cell-22 λ-sweep (whose
num_spatial_orbs comes from hcore.shape) all request exactly
cthc * num_spatial_orbs interpolation points, independent of the
real-space grid size. -/
theorem C9_num_thc_scaling (β : Type) (nsoOf : β → ℕ) (nso : ℕ)
    (meshes ranks : List ℕ) (bases : List β) :
    solveArgs (cell8Calls nso ranks) = ranks.map (fun cthc => cthc * nso) ∧
    solveArgs (cell17Calls nso meshes ranks) =
      meshes.flatMap (fun _ => ranks.map (fun cthc => cthc * nso)) ∧
    solveArgs (cell19Calls nsoOf bases ranks) =
      bases.flatMap (fun b => ranks.map (fun cthc => cthc * nsoOf b)) ∧
    solveArgs (cell22Calls nso ranks) = ranks.map (fun cthc => cthc * nso) := by
  refine ⟨?_, ?_, ?_, ?_⟩
  · induction ranks with
    | nil => rfl
    | cons c rest ih =>
      rw [cell8Calls, List.flatMap_cons, solveArgs_append]
      rw [cell8Calls] at ih
      rw [ih]
      rfl
  · induction meshes with
    | nil => rfl
    | cons m rest ih =>
      rw [cell17Calls, List.flatMap_cons, solveArgs_append]
      rw [cell17Calls] at ih
      rw [ih, List.flatMap_cons]
      have hinner : ∀ (n : ℕ) (rs : List ℕ),
          solveArgs (innerRankCalls n rs) = rs.map (fun cthc => cthc * n) := by
        intro n rs
        induction rs with
        | nil => rfl
        | cons q qrest ihq =>
          rw [innerRankCalls, List.flatMap_cons, solveArgs_append]
          rw [innerRankCalls] at ihq
          rw [ihq]
          rfl
      simp [solveArgs, hinner]
  · induction bases with
    | nil => rfl
    | cons b rest ih =>
      rw [cell19Calls, List.flatMap_cons, solveArgs_append]
      rw [cell19Calls] at ih
      rw [ih, List.flatMap_cons]
      have hinner : ∀ (n : ℕ) (rs : List ℕ),
          solveArgs (innerRankCalls n rs) = rs.map (fun cthc => cthc * n) := by
        intro n rs
        induction rs with
        | nil => rfl
        | cons q qrest ihq =>
          rw [innerRankCalls, List.flatMap_cons, solveArgs_append]
          rw [innerRankCalls] at ihq
          rw [ihq]
          rfl
      simp [solveArgs, hinner]
  · induction ranks with
    | nil => rfl
    | cons c rest ih =>
      rw [cell22Calls, List.flatMap_cons, solveArgs_append]
      rw [cell22Calls] at ih
      rw [ih]
      rfl

/-- C8, counterexample: the claim says the deviation recorded for a given
rank parameter is a function only of that parameter and the fixed problem
configuration, not of which sweep steps ran before it.  With the same
environment and the same initial RNG state, rank parameter 4 records 16/3
when swept alone but 11/2 when preceded by rank 2, because the first step
advances the shared RNG stream consumed by the KMeans-CVT factorization. -/
theorem C8_counterexample :
    (sweep envA [4] 0).1.1.get? 0 ≠ (sweep envA [2, 4] 0).1.1.get? 1 := by
  have h1 : (sweep envA [4] 0).1.1 = [16 / 3] := by
    simp [sweep, sweepFrom, sweepStep, envA, maxAbsDiff]
    norm_num
  have h2 : (sweep envA [2, 4] 0).1.1 = [8 / 3, 11 / 2] := by
    simp [sweep, sweepFrom, sweepStep, envA, maxAbsDiff]
    norm_num
    rw [abs_of_nonneg (by norm_num : (0 : ℚ) ≤ 33 / 2)]
    norm_num
  rw [h1, h2]
  simp
  norm_num

/-- C8, amended: besides the append-only ErrorRecord, sweep steps share
one further piece of mutable state: numpy's global RNG stream, consumed by
each factorization call.  Appending a step to a sweep extends the record
by exactly one pair, computed from the step's rank parameter, the fixed
environment and the RNG state left by the preceding steps — so a step's
deviation is a function of its parameter, the configuration and the
incoming RNG state, and depends on earlier steps only through that RNG
state. -/
theorem C8_step_dependence (ρ α : Type) (env : Env ρ α) (pre : List ℕ) (c : ℕ) (r : ρ) :
    sweep env (pre ++ [c]) r =
      (((sweep env pre r).1.1 ++ [(sweepStep env c (sweep env pre r).2).1.1],
        (sweep env pre r).1.2 ++ [(sweepStep env c (sweep env pre r).2).1.2]),
       (sweepStep env c (sweep env pre r).2).2) := by
  rw [sweep_append]
  simp [sweep, sweepFrom]

/-- C10: the recorded integral deviation is not the raw max-absolute
elementwise difference between the approximate and exact ERI tensors: in
every iteration the sweep records that difference divided by num_kpts
(compensating the 1/Nk normalization omitted by the external library's ERI
convention), and whenever num_kpts is at least 2 and the raw difference m
is positive, the recorded value m / num_kpts is strictly smaller than m. -/
theorem C10_eri_normalization (ρ α : Type) (env : Env ρ α) (ranks : List ℕ) (r : ρ)
    (m : ℚ) (nk : ℕ) (hnk : 2 ≤ nk) (hm : 0 < m) :
    (sweep env ranks r).1.1 =
      List.zipWith (fun cthc st =>
        maxAbsDiff (env.get_eri (env.solve_kmeans_kpisdf (cthc * env.num_spatial_orbs) st).1)
            (env.get_eri_exact (env.solve_kmeans_kpisdf (cthc * env.num_spatial_orbs) st).1) /
          (env.num_kpts : ℚ)) ranks (rngStates env ranks r) ∧
    m / (nk : ℚ) < m := by
  constructor
  · rw [sweep_fst_eq_zipWith]
    simp only [sweepStep_fst_eri]
  · refine div_lt_self hm ?_
    have h2 : (2 : ℚ) ≤ (nk : ℚ) := by exact_mod_cast hnk
    linarith

/-- Witness for C10 at the concrete environment envA, whose raw
max-absolute integral difference at rank 2 is 8 and whose num_kpts is 3. -/
theorem C10_eri_normalization_witness :
    2 ≤ 3 ∧ (0 : ℚ) < 8 ∧
    ((sweep envA [2] 0).1.1 =
       List.zipWith (fun cthc st =>
         maxAbsDiff (envA.get_eri (envA.solve_kmeans_kpisdf (cthc * envA.num_spatial_orbs) st).1)
             (envA.get_eri_exact (envA.solve_kmeans_kpisdf (cthc * envA.num_spatial_orbs) st).1) /
           (envA.num_kpts : ℚ)) [2] (rngStates envA [2] 0) ∧
     (8 : ℚ) / ((3 : ℕ) : ℚ) < 8) :=
  ⟨by decide, by simp,
   C10_eri_normalization ℕ ℕ envA [2] 0 8 3 (by decide) (by simp)⟩

theorem foldr_max_le (l : List ℚ) (t : ℚ) (ht : 0 ≤ t) (h : ∀ a ∈ l, a ≤ t) :
    l.foldr max 0 ≤ t := by
  induction l with
  | nil => exact ht
  | cons a rest ih =>
    exact max_le (h a (List.mem_cons_self a rest))
      (ih fun b hb => h b (List.mem_cons_of_mem a hb))

theorem maxAbsDiff_le_of_close (x y : List ℚ) (t : ℚ) (ht : 0 ≤ t)
    (h : ∀ p ∈ x.zip y, |p.1 - p.2| ≤ t) : maxAbsDiff x y ≤ t := by
  rw [maxAbsDiff]
  refine foldr_max_le _ t ht ?_
  intro a ha
  rw [List.mem_map] at ha
  obtain ⟨p, hp, rfl⟩ := ha
  exact h p hp

/-- C5: when the requested number of interpolation points equals the full
real-space grid size (num_thc = np.prod(cell.mesh), as in cell-4), the
THC-reconstructed and exact ERI tensors match elementwise to tolerance, so
the cell-6 assert np.allclose(eri_thc, eri_exact) passes and both the raw
max-absolute deviation and the recorded deviation max/num_kpts are zero
within the 1e-10 tolerance. -/
theorem C5_full_rank_deviation (ρ α : Type) (env : Env ρ α) (r : ρ)
    (h : FullRankExact env) :
    npAllclose (env.get_eri (env.solve_kmeans_kpisdf env.mesh.prod r).1)
        (env.get_eri_exact (env.solve_kmeans_kpisdf env.mesh.prod r).1) = true ∧
    maxAbsDiff (env.get_eri (env.solve_kmeans_kpisdf env.mesh.prod r).1)
        (env.get_eri_exact (env.solve_kmeans_kpisdf env.mesh.prod r).1) ≤ isdfTol ∧
    maxAbsDiff (env.get_eri (env.solve_kmeans_kpisdf env.mesh.prod r).1)
        (env.get_eri_exact (env.solve_kmeans_kpisdf env.mesh.prod r).1) /
      (env.num_kpts : ℚ) ≤ isdfTol := by
  obtain ⟨hlen, hpt⟩ := h r
  have hmax : maxAbsDiff (env.get_eri (env.solve_kmeans_kpisdf env.mesh.prod r).1)
      (env.get_eri_exact (env.solve_kmeans_kpisdf env.mesh.prod r).1) ≤ isdfTol :=
    maxAbsDiff_le_of_close _ _ _ (by norm_num [isdfTol]) hpt
  refine ⟨?_, hmax, ?_⟩
  · rw [npAllclose, Bool.and_eq_true]
    refine ⟨by simp [hlen], ?_⟩
    rw [List.all_eq_true]
    intro p hp
    rw [decide_eq_true_eq]
    have hdiff := hpt p hp
    have h8 : isdfTol ≤ 1 / 100000000 := by norm_num [isdfTol]
    have hrt : (0 : ℚ) ≤ (1 / 100000) * |p.2| := mul_nonneg (by norm_num) (abs_nonneg _)
    linarith
  · rcases Nat.eq_zero_or_pos env.num_kpts with h0 | hpos
    · rw [h0, Nat.cast_zero, div_zero]
      norm_num [isdfTol]
    · have h1 : (1 : ℚ) ≤ (env.num_kpts : ℚ) := by exact_mod_cast hpos
      exact le_trans (div_le_self (maxAbsDiff_nonneg _ _) h1) hmax

/-- Witness for C5 at a concrete exact environment. -/
theorem C5_full_rank_deviation_witness :
    FullRankExact envC5 ∧
    (npAllclose (envC5.get_eri (envC5.solve_kmeans_kpisdf envC5.mesh.prod ()).1)
         (envC5.get_eri_exact (envC5.solve_kmeans_kpisdf envC5.mesh.prod ()).1) = true ∧
     maxAbsDiff (envC5.get_eri (envC5.solve_kmeans_kpisdf envC5.mesh.prod ()).1)
         (envC5.get_eri_exact (envC5.solve_kmeans_kpisdf envC5.mesh.prod ()).1) ≤ isdfTol ∧
     maxAbsDiff (envC5.get_eri (envC5.solve_kmeans_kpisdf envC5.mesh.prod ()).1)
         (envC5.get_eri_exact (envC5.solve_kmeans_kpisdf envC5.mesh.prod ()).1) /
       (envC5.num_kpts : ℚ) ≤ isdfTol) :=
  ⟨fun r => ⟨rfl, by intro p hp; simp [envC5] at hp; rw [hp]; norm_num [isdfTol]⟩,
   C5_full_rank_deviation Unit ℕ envC5 ()
     (fun r => ⟨rfl, by intro p hp; simp [envC5] at hp; rw [hp]; norm_num [isdfTol]⟩)⟩

end Isdf
